import Mathlib

/-!
Verification of wizeline/BytescribeTeam.

Shallow embedding of the parts of the repository the claims concern:
- `aws-lambda-crawler/handler.py` (dispatch, job-status polling, async job
  start, job records),
- `aws-lambda-crawler/crawler/parser.py` (`parse_html`),
- `aws-lambda-crawler/crawler/secrets.py` (`get_confluence_credentials`),
- `video-processor-lambda/lambda_function.py` (segment ordering, subtitle
  chunking, image fit/pad layout, S3 archive move).

JSON values are modelled by the inductive `JVal`; Lambda event bodies are
represented by their parsed JSON value (the code accepts either a dict or a
JSON string that it parses with `json.loads`; the embedding works with the
resulting value).  Object storage is a partial map from keys to values;
network and SDK calls appear either as oracle parameters or as entries in an
effect trace.
-/

/-- A JSON value, as produced by `json.loads` and passed around the handlers.
Objects keep their fields as an ordered association list (the code never
builds an object with duplicate keys). -/
inductive JVal where
  | str (s : String)
  | num (n : Int)
  | bool (b : Bool)
  | null
  | arr (elems : List JVal)
  | obj (fields : List (String × JVal))

namespace JVal

/-- Python truthiness (`if x:`) of a JSON value: empty strings, zero, `False`,
`None`, empty lists and empty dicts are falsy. -/
def truthy : JVal → Bool
  | .str s => !s.isEmpty
  | .num n => n != 0
  | .bool b => b
  | .null => false
  | .arr xs => !xs.isEmpty
  | .obj fs => !fs.isEmpty

/-- `d.get(k)` on a parsed JSON value: field lookup on objects, `None` on
everything else (the code reaches the non-dict case only behind
`isinstance`/`except` guards that continue with `None`-like behaviour). -/
def getField : JVal → String → Option JVal
  | .obj fs, k => fs.lookup k
  | _, _ => none

/-- Python `str()` as used by the f-string `f"jobs/{job_id}.json"`.  Scalars
are rendered exactly as Python renders them; container values never reach an
f-string on the embedded code paths, so their rendering is a placeholder. -/
def pyStr : JVal → String
  | .str s => s
  | .num n => toString n
  | .bool true => "True"
  | .bool false => "False"
  | .null => "None"
  | .arr _ => "<list>"
  | .obj _ => "<dict>"

end JVal

/-- Truthiness of an `Option JVal` (a `d.get(k)` result used in an `if`). -/
def optJTruthy : Option JVal → Bool
  | some v => v.truthy
  | none => false

/-- An optional string rendered as a JSON value (`None` becomes `null`). -/
def optStrJ : Option String → JVal
  | some s => .str s
  | none => .null

/-- The process environment: `os.getenv`. -/
def Env : Type := String → Option String

/-- Python `a or b` on two `os.getenv` results (empty strings are falsy). -/
def pyOrStr (a b : Option String) : Option String :=
  match a with
  | some s => if s.isEmpty then b else some s
  | none => b

/-- Truthiness of an optional string (`if not s:` on a `getenv` result). -/
def strOptTruthy : Option String → Bool
  | some s => !s.isEmpty
  | none => false

/-- API-Gateway proxy response built by `_proxy_response`: status code plus
the JSON payload that is serialised into the body.  The fixed CORS headers
carry no information and are omitted. -/
structure ProxyResponse where
  statusCode : Nat
  body : JVal

/-- Failure modes of an S3 `get_object` call as the handler distinguishes
them: the `NoSuchKey` client error versus any other `ClientError` (carrying
`str(e)`). -/
inductive S3Err where
  | noSuchKey
  | clientError (msg : String)

namespace Crawl

/-- An S3 read oracle: bucket and key to the parsed JSON stored there, or a
client error.  Job records are written by this same code as `json.dumps` of a
dict, so the stored body is modelled post-`json.loads`. -/
def S3Read : Type := String → String → Except S3Err JVal

/-- `s3_bucket = os.getenv("S3_UPLOAD_BUCKET") or os.getenv("BUCKET_NAME")`
(handler.py line 204 and elsewhere). -/
def resolveBucket (env : Env) : Option String :=
  pyOrStr (env "S3_UPLOAD_BUCKET") (env "BUCKET_NAME")

/-- handler.py lines 197-215: the `job_status` poll branch.  A falsy
`job_id` gives 400; a missing bucket configuration gives 500; otherwise the
stored record at `jobs/{job_id}.json` is returned verbatim with 200,
`NoSuchKey` gives 404 and any other client error gives 500. -/
def jobStatusResponse (env : Env) (s3 : S3Read) (body : JVal) : ProxyResponse :=
  let jobId := body.getField "job_id"
  if !optJTruthy jobId then
    ⟨400, .obj [("error", .str "missing job_id")]⟩
  else
    let bucketOpt := resolveBucket env
    if !strOptTruthy bucketOpt then
      ⟨500, .obj [("error", .str "S3 upload bucket not configured")]⟩
    else
      let jid := jobId.getD .null
      let jobKey := "jobs/" ++ jid.pyStr ++ ".json"
      match s3 (bucketOpt.getD "") jobKey with
      | .ok jobData => ⟨200, jobData⟩
      | .error .noSuchKey =>
          ⟨404, .obj [("error", .str "job not found"), ("job_id", jid)]⟩
      | .error (.clientError m) =>
          ⟨500, .obj [("error", .str ("failed to get job status: " ++ m))]⟩

/-- handler.py lines 240-246: the environment keys reported by
`diagnostics`. -/
def interestingEnv (env : Env) : JVal :=
  .obj [("REGION", optStrJ (pyOrStr (env "REGION") (env "AWS_DEFAULT_REGION"))),
        ("CLAUDE_INFERENCE_PROFILE_ARN", optStrJ (env "CLAUDE_INFERENCE_PROFILE_ARN")),
        ("S3_UPLOAD_BUCKET", optStrJ (resolveBucket env)),
        ("S3_UPLOAD_PREFIX", optStrJ (env "S3_UPLOAD_PREFIX"))]

/-- handler.py lines 218-257: `check_models` / `diagnostics`.  `helpers` is
whether a Bedrock helper was importable; `checkAccess` models the
`check_model_access()` call (`.error` is the raised exception text). -/
def modelsResponse (env : Env) (helpers : Bool)
    (checkAccess : Except String (List String)) (action : String) : ProxyResponse :=
  if helpers then
    match checkAccess with
    | .error e =>
        ⟨500, .obj [("action", .str action), ("error", .str e),
                    ("accessible_models", .arr [])]⟩
    | .ok models =>
        if action == "check_models" then
          ⟨200, .obj [("action", .str "check_models"),
                      ("accessible_models", .arr (models.map .str)),
                      ("total_accessible", .num models.length)]⟩
        else
          ⟨200, .obj [("action", .str "diagnostics"),
                      ("environment", interestingEnv env),
                      ("accessible_models", .arr (models.map .str)),
                      ("total_accessible", .num models.length)]⟩
  else
    ⟨500, .obj [("action", .str action),
                ("error", .str "Bedrock integration not available")]⟩

/-- Does field `k` of the event equal the string `s`?  Python `==` against a
string literal is false for any non-string value. -/
def fieldIsStr (v : JVal) (k s : String) : Bool :=
  match v.getField k with
  | some (.str t) => t == s
  | _ => false

/-- `body.get("action")` when it is a string (the only case the handler
compares against). -/
def bodyAction (b : JVal) : Option String :=
  match b.getField "action" with
  | some (.str s) => some s
  | _ => none

/-- Outcome of the dispatch part of `lambda_handler` (lines 184-259):
either an early response, the hand-off to `_process_async_job`, or a fall
through to the URL extraction / crawl code. -/
inductive Dispatch where
  | respond (r : ProxyResponse)
  | processJob
  | continueCrawl

/-- handler.py lines 184-259 in source order: the OPTIONS preflight, the
`process_job` hand-off, then (for a truthy body) the `job_status` poll and
the `check_models`/`diagnostics` branches; anything else continues to the
crawl. -/
def dispatch (env : Env) (s3 : S3Read) (helpers : Bool)
    (checkAccess : Except String (List String)) (event : JVal) : Dispatch :=
  if fieldIsStr event "httpMethod" "OPTIONS" then
    .respond ⟨200, .str ""⟩
  else if fieldIsStr event "action" "process_job" then
    .processJob
  else
    match event.getField "body" with
    | some b =>
        if b.truthy then
          match bodyAction b with
          | some a =>
              if a == "job_status" then
                .respond (jobStatusResponse env s3 b)
              else if a == "check_models" || a == "diagnostics" then
                .respond (modelsResponse env helpers checkAccess a)
              else
                .continueCrawl
          | none => .continueCrawl
        else .continueCrawl
    | none => .continueCrawl

/-- `async_mode = isinstance(body_dict, dict) and body_dict.get("async", False)`
(line 362), used as a truthy flag. -/
def asyncRequested (bodyDict : JVal) : Bool :=
  optJTruthy (bodyDict.getField "async")

/-- The pieces of the Lambda `context` object the handler reads (`context`
may be `None`, hence the options). -/
structure LambdaCtx where
  awsRequestId : Option String
  functionName : Option String

/-- The values in scope when the summarization stage (lines 556 onwards)
runs: they were computed by the crawl/upload code earlier in the handler. -/
structure SummarizeInputs where
  url : String
  contentToSummary : String
  imagesJson : List JVal
  s3Bucket : Option String
  mediaRefs : List JVal
  modelId : Option JVal
  textConfig : Option JVal
  responsePayload : JVal

/-- Externally visible calls made by the summarization stage. -/
inductive Effect where
  | s3Put (bucket key : String) (body : JVal) (contentType : String)
  | lambdaInvoke (functionName invocationType : String) (payload : JVal)
  | bedrockSummarize (articleText : String)

/-- handler.py lines 562-568: the initial job record saved when an async job
starts (`created_at` is `context.aws_request_id`, `None` without a
context). -/
def initialJobRecord (jobId : String) (requestId : Option String) (url : String) : JVal :=
  .obj [("job_id", .str jobId),
        ("status", .str "processing"),
        ("created_at", optStrJ requestId),
        ("url", .str url),
        ("progress", .str "Starting image analysis and summarization...")]

/-- `kwargs.get("model_id")` / `kwargs.get("text_config")`: the kwarg was
stored only when the request value was truthy, so `.get` yields `None`
otherwise (lines 372-376 and 586-587). -/
def truthyOrNull : Option JVal → JVal
  | some v => if v.truthy then v else .null
  | none => .null

/-- handler.py lines 582-591: the payload handed to the asynchronous
re-invocation (it is `json.dumps`-ed into the `body` field; the embedding
keeps the parsed value). -/
def asyncJobPayload (jobId : String) (inp : SummarizeInputs) (bucket : String) : JVal :=
  .obj [("job_id", .str jobId),
        ("content_to_summary", .str inp.contentToSummary),
        ("images_json", .arr inp.imagesJson),
        ("model_id", truthyOrNull inp.modelId),
        ("text_config", truthyOrNull inp.textConfig),
        ("s3_bucket", .str bucket),
        ("media_refs", .arr inp.mediaRefs),
        ("response_payload", inp.responsePayload)]

/-- Dict assignment `d[k] = x` on a JSON object (position of an overwritten
key is not preserved; only lookup behaviour matters here). -/
def setField (v : JVal) (k : String) (x : JVal) : JVal :=
  match v with
  | .obj fs => .obj ((fs.filter (fun p => p.1 != k)) ++ [(k, x)])
  | w => w

/-- Lines 670-673: a list result becomes `{"bullets": ...}`, anything else is
stored as is.  (The `outputTextArray` enrichment of a dict result, lines
644-667, only rewrites inside the summary value and is not modelled; no
claim depends on the summary contents.) -/
def normalizeSummary : JVal → JVal
  | .arr xs => .obj [("bullets", .arr xs)]
  | v => v

/-- handler.py lines 695-699: the payload annotation when no Bedrock helper
could be imported. -/
def summaryUnavailable (payload : JVal) : JVal :=
  setField payload "summary_error"
    (.obj [("error", .str "Bedrock integration not available"),
           ("help", .str "summarize_page function could not be imported")])

/-- handler.py lines 361-701, the summarization stage, as an effect trace
plus the response.  `helpers` is whether a Bedrock helper was importable,
`asyncMode` the truthiness of the body `async` flag, `jobId` the
`uuid.uuid4()` drawn in the async branch, `summaryResp` the oracle value an
inline summarization call returns.  In the async branch a `None` bucket
makes `put_object` raise, which the surrounding `except` turns into a 500
(line 610); with a bucket, the job record is written, the function
re-invokes itself asynchronously with action `process_job`, and 202 is
returned with the basic content — no summarization call happens. -/
def summarizeStage (helpers asyncMode : Bool) (jobId : String)
    (ctx : LambdaCtx) (inp : SummarizeInputs) (summaryResp : JVal) :
    List Effect × ProxyResponse :=
  if helpers then
    if asyncMode then
      match inp.s3Bucket with
      | none =>
          ([], ⟨500, .obj [("error", .str "Failed to start async job: Parameter validation failed")]⟩)
      | some bucket =>
          ([.s3Put bucket ("jobs/" ++ jobId ++ ".json")
              (initialJobRecord jobId ctx.awsRequestId inp.url) "application/json",
            .lambdaInvoke (ctx.functionName.getD "aws-lambda-crawler") "Event"
              (.obj [("action", .str "process_job"),
                     ("body", asyncJobPayload jobId inp bucket)])],
           ⟨202, .obj [("job_id", .str jobId),
                       ("status", .str "processing"),
                       ("message", .str "AI-powered analysis and summarization in progress. Check back soon for your enhanced content and insights."),
                       ("basic_content", inp.responsePayload)]⟩)
    else
      ([.bedrockSummarize inp.contentToSummary],
       ⟨200, setField inp.responsePayload "summary" (normalizeSummary summaryResp)⟩)
  else
    ([], ⟨200, summaryUnavailable inp.responsePayload⟩)

/-- handler.py lines 93-112, the `update_job_status` closure of
`_process_async_job`: the S3 key and the JSON record it writes.  `job_id`,
`status` and `updated_at` are always present; `progress`, `result` and
`error` only when the supplied value is truthy. -/
def update_job_status_record (jobId : String) (requestId : Option String)
    (status : String) (progress result error : Option JVal) : String × JVal :=
  let base := [("job_id", JVal.str jobId), ("status", JVal.str status),
               ("updated_at", optStrJ requestId)]
  let withProgress := base ++ (if optJTruthy progress then [("progress", progress.getD .null)] else [])
  let withResult := withProgress ++ (if optJTruthy result then [("result", result.getD .null)] else [])
  let withError := withResult ++ (if optJTruthy error then [("error", error.getD .null)] else [])
  ("jobs/" ++ jobId ++ ".json", .obj withError)

end Crawl

namespace Secrets

/-- The credentials dict (the code normalizes keys and values to `str`). -/
def Creds : Type := List (String × String)

/-- The Secrets Manager `get_secret_value` response: the optional
`SecretString`, and its `json.loads` result when it parses (`none` models a
`JSONDecodeError`). -/
structure SMResp where
  secretString : Option String
  parsed : Option JVal

/-- The ambient state `get_confluence_credentials` reads: the environment,
whether `boto3` imported, and the Secrets Manager call outcome (`.error` is
any raised exception). -/
structure World where
  env : Env
  boto3Available : Bool
  secretFetch : Except String SMResp

/-- secrets.py lines 27-35: `_load_from_env`. -/
def loadFromEnv (env : Env) : Option Creds :=
  let user := env "CONFLUENCE_USER"
  let token := pyOrStr (env "CONFLUENCE_API_TOKEN") (env "CONFLUENCE_PASSWORD")
  if strOptTruthy user && strOptTruthy token then
    some [("user", user.getD ""), ("token", token.getD "")]
  else
    match env "CONFLUENCE_BEARER_TOKEN" with
    | some bearer => if !bearer.isEmpty then some [("bearer", bearer)] else none
    | none => none

/-- secrets.py lines 38-86: `get_confluence_credentials`, with the
module-level cache passed and returned explicitly.  Returns the result and
the new cache value. -/
def get_confluence_credentials (cache : Option Creds) (w : World) : Creds × Option Creds :=
  match cache with
  | some c => (c, some c)
  | none =>
    match loadFromEnv w.env with
    | some envCreds => (envCreds, some envCreds)
    | none =>
      if !w.boto3Available then ([], some [])
      else
        match w.env "CONFLUENCE_SECRET_NAME" with
        | none => ([], some [])
        | some secretName =>
          if secretName.isEmpty then ([], some [])
          else
            match w.secretFetch with
            | .error _ => ([], some [])
            | .ok resp =>
              match resp.secretString with
              | none => ([], some [])
              | some secretString =>
                if secretString.isEmpty then ([], some [])
                else
                  match resp.parsed with
                  | some (.obj fields) =>
                      let c := fields.map (fun p => (p.1, p.2.pyStr))
                      (c, some c)
                  | some _ => ([("token", secretString)], some [("token", secretString)])
                  | none => ([("token", secretString)], some [("token", secretString)])

end Secrets

namespace HtmlParse

/-- The result of `extract_media_and_references` (parser.py lines 8-106):
four lists of JSON objects.  What the vendor HTML parser extracts is opaque;
these lists are its output. -/
structure MediaOut where
  images : List JVal
  videos : List JVal
  references : List JVal
  embedded : List JVal

/-- The four keys `result.update(resources)` adds (parser.py line 152). -/
def MediaOut.fields (m : MediaOut) : List (String × JVal) :=
  [("images", .arr m.images), ("videos", .arr m.videos),
   ("references", .arr m.references), ("embedded", .arr m.embedded)]

/-- Abstraction of the BeautifulSoup document: exactly the pieces
`parse_html` reads from it.  `titleText` is the stripped `<title>` text
(`none` when the tag is absent), `bodyText` the joined stripped strings of
`<body>` (`none` when there is no body), `fullText` the joined stripped
strings of the whole soup, `media` the `extract_media_and_references`
output. -/
structure Soup where
  titleText : Option String
  bodyText : Option String
  fullText : String
  media : MediaOut

/-- Python `s[:n]`: a non-negative bound takes a prefix, a negative bound
drops `-n` characters from the end (clamped at the empty string). -/
def pySliceTo (s : String) (n : Int) : String :=
  if 0 ≤ n then ⟨s.data.take n.toNat⟩
  else ⟨s.data.take (s.length - (-n).toNat)⟩

/-- parser.py lines 123-128: the snippet bound is the explicit argument when
given, else `int(os.getenv("PARSE_SNIPPET_MAX"))` when that parses, else
400.  (Python `int()` ignores surrounding whitespace, hence the `trim`.) -/
def resolveMaxSnippet (maxArg : Option Int) (env : Env) : Int :=
  match maxArg with
  | some n => n
  | none =>
    match env "PARSE_SNIPPET_MAX" with
    | some v => (v.trim.toInt?).getD 400
    | none => 400

/-- parser.py lines 134-139: the text drawn from the soup — the body text
when a `<body>` exists, else the whole-soup text. -/
def soupText (soup : Soup) : String :=
  match soup.bodyText with
  | some t => t
  | none => soup.fullText

/-- parser.py lines 109-154: `parse_html` as the ordered key/value list of
the returned dict.  `full_text` keeps the text whole, otherwise it is
sliced to the resolved bound; media keys are appended only when
`extract_resources` holds and `base_url` is non-empty. -/
def parse_html (soup : Soup) (maxArg : Option Int)
    (fullText extractResources : Bool) (baseUrl : String) (env : Env) :
    List (String × JVal) :=
  let maxChars := resolveMaxSnippet maxArg env
  let base := [("title", JVal.str (soup.titleText.getD "")),
               ("text_snippet", JVal.str (if fullText then soupText soup
                                          else pySliceTo (soupText soup) maxChars))]
  if extractResources && !baseUrl.isEmpty then base ++ soup.media.fields
  else base

end HtmlParse

namespace VideoProc

/-- lambda_function.py line 175: punctuation that closes a subtitle chunk. -/
def pausePunctuation : List Char := ['.', ',', ':', ';', '!', '?']

/-- Line 183: `word.strip()[-1] in PAUSE_PUNCTUATION if len(word) > 0 else
False`.  Words come from `str.split()`, so they are non-empty and free of
whitespace and `strip()` is the identity. -/
def isPausePoint (w : String) : Bool :=
  match w.data.getLast? with
  | some c => pausePunctuation.contains c
  | none => false

/-- Lines 178-189, the chunking loop of `generate_timed_text_clips`: words
are appended to the current chunk, which is closed as soon as it holds
`maxW` words or its last word ends in pause punctuation; a non-empty
remainder becomes the final chunk (lines 192-193). -/
def chunkLoop (maxW : Nat) : List String → List String → List (List String)
  | acc, [] => if acc.isEmpty then [] else [acc]
  | acc, w :: ws =>
    let acc' := acc ++ [w]
    if maxW ≤ acc'.length || isPausePoint w then
      acc' :: chunkLoop maxW [] ws
    else
      chunkLoop maxW acc' ws

/-- The chunk word-lists produced for a word sequence (the code joins each
chunk with single spaces before rendering it as a `TextClip`). -/
def chunkWords (maxW : Nat) (ws : List String) : List (List String) :=
  chunkLoop maxW [] ws

/-- A highlight segment as the handler reads it from the manifest. -/
structure Segment where
  order : Option Int
  text : Option String
  audio : Option String
  imageKey : Option String

/-- Line 636 sort key: `x.get("order", 9999)`. -/
def segmentSortKey (s : Segment) : Int := s.order.getD 9999

/-- Line 636: `highlights_data.sort(key=lambda x: x.get("order", 9999))`
(a stable ascending sort). -/
def sortHighlights (hs : List Segment) : List Segment :=
  hs.mergeSort (fun a b => decide (segmentSortKey a ≤ segmentSortKey b))

/-- Lines 662-664: a segment with a falsy `audio` key is skipped. -/
def audioTruthy (s : Segment) : Bool :=
  match s.audio with
  | some a => !a.isEmpty
  | none => false

/-- Lines 643-737: the per-segment loop walks the sorted list in order; a
segment contributes an intermediate video (and is later concatenated and
archived) iff its audio key is truthy and the audio download plus
`create_video_from_images_and_audio` succeed — environment outcomes modelled
by the `success` oracle. -/
def processedSegments (success : Segment → Bool) (hs : List Segment) : List Segment :=
  (sortHighlights hs).filter (fun s => audioTruthy s && success s)

/-- Object storage for one bucket: key to object contents (opaque bytes). -/
def Store : Type := String → Option String

/-- lambda_function.py lines 71-89: `move_s3_object` copies the object to
`newKey` and then deletes `oldKey`.  A failed copy (missing source) is
caught and logged, leaving the store unchanged — in particular the delete
does not run. -/
def move_s3_object (st : Store) (oldKey newKey : String) : Store :=
  match st oldKey with
  | some v => fun k => if k = oldKey then none else if k = newKey then some v else st k
  | none => st

/-- `os.path.join` for the two-argument key case used by the archival step:
an absolute second component (leading `/`) discards the first; otherwise a
separator is inserted unless the first already ends in one (or is empty).
Leading/trailing-slash tests are phrased on the character list. -/
def pyPathJoin (a b : String) : String :=
  if b.data.head? = some '/' then b
  else if a.data.getLast? = some '/' then a ++ b
  else if a.data.isEmpty then b else a ++ "/" ++ b

/-- Line 772: `archive_folder = f"{ARCHIVE_PREFIX}{compilation_id}/"` with
`ARCHIVE_PREFIX = "processed-input/"`. -/
def archiveFolder (compilationId : String) : String :=
  "processed-input/" ++ compilationId ++ "/"

/-- A sequence of `move_s3_object` calls, first to last. -/
def movePairs (st : Store) (pairs : List (String × String)) : Store :=
  pairs.foldl (fun s p => move_s3_object s p.1 p.2) st

/-- lambda_function.py lines 768-789, the archival step after the final
video is uploaded: move the JSON manifest to
`processed-input/{compilation_id}/{archivedJsonName}` and then each
successfully processed audio key `k` to
`os.path.join(archive_folder, k)`, in order. -/
def archiveStep (st : Store) (jsonKey archivedJsonName compilationId : String)
    (audioKeys : List String) : Store :=
  let folder := archiveFolder compilationId
  movePairs st ((jsonKey, pyPathJoin folder archivedJsonName) ::
    audioKeys.map (fun k => (k, pyPathJoin folder k)))

/-- The geometry computed by `resize_and_crop_image` (lines 288-325). -/
structure FitLayout where
  newWidth : Int
  newHeight : Int
  xOffset : Int
  yOffset : Int
  canvasWidth : Int
  canvasHeight : Int

/-- Python `int()`: truncation toward zero (`q.den` is positive and the
fraction is reduced, so T-division of numerator by denominator truncates). -/
def pyInt (q : ℚ) : Int := Int.tdiv q.num q.den

/-- lambda_function.py lines 296-324: the single scale factor
`min(target_width / width, target_height / height)`, the truncated scaled
dimensions, the centering offsets computed with floor division `// 2`, and
the black canvas of exactly the target size.  (Python float arithmetic is
modelled exactly over the rationals.) -/
def resize_and_crop_layout (w h tw th : Nat) : FitLayout :=
  let scale : ℚ := min ((tw : ℚ) / (w : ℚ)) ((th : ℚ) / (h : ℚ))
  let nw := pyInt ((w : ℚ) * scale)
  let nh := pyInt ((h : ℚ) * scale)
  { newWidth := nw
    newHeight := nh
    xOffset := Int.fdiv ((tw : Int) - nw) 2
    yOffset := Int.fdiv ((th : Int) - nh) 2
    canvasWidth := (tw : Int)
    canvasHeight := (th : Int) }

/-- `final_output_path.lower().endswith(".png")` (line 285). -/
def lowerEndsWithPng (p : String) : Bool :=
  (".png".data).isSuffixOf (p.data.map Char.toLower)

/-- Python `p.rsplit(".", 1)[0]`: everything before the last dot, or the
whole string when there is none. -/
def rsplitDotHead (p : String) : String :=
  let parts := p.splitOn "."
  if parts.length ≤ 1 then p else String.intercalate "." parts.dropLast

/-- Lines 285-286: the output path is forced to a `.png` name. -/
def pngOutputName (p : String) : String :=
  if lowerEndsWithPng p then p else rsplitDotHead p ++ ".png"

/-- The (source, destination) move list of the archival step: the manifest
first, then each successful audio key in order. -/
def archivePairs (jsonKey archivedJsonName compilationId : String)
    (audioKeys : List String) : List (String × String) :=
  (jsonKey, pyPathJoin (archiveFolder compilationId) archivedJsonName) ::
    audioKeys.map (fun k => (k, pyPathJoin (archiveFolder compilationId) k))

/-- Statement vocabulary: a chunk satisfies the loop's closing condition —
it is full, or its last word ends in pause punctuation. -/
def closesChunk (maxW : Nat) (c : List String) : Prop :=
  maxW ≤ c.length ∨ ∃ w, c.getLast? = some w ∧ isPausePoint w = true

end VideoProc

/-- An environment with no variables set (used by concrete instances). -/
def envNone : Env := fun _ => none

/-- An S3 read oracle with no objects stored. -/
def s3None : Crawl.S3Read := fun _ _ => .error .noSuchKey

/-- Concrete summarization-stage inputs used by a witness. -/
def inpEx : Crawl.SummarizeInputs :=
  { url := "http://example.com"
    contentToSummary := "article text"
    imagesJson := []
    s3Bucket := some "bkt"
    mediaRefs := []
    modelId := none
    textConfig := none
    responsePayload := .obj [("url", .str "http://example.com")] }

/-- A concrete soup: no title tag, no body tag, whole-soup text "hello". -/
def soupCex : HtmlParse.Soup :=
  { titleText := none, bodyText := none, fullText := "hello"
    media := { images := [], videos := [], references := [], embedded := [] } }

/-- A concrete store used by a witness: a manifest, two audio objects and an
unrelated object. -/
def storeEx : VideoProc.Store := fun k =>
  if k = "h.json" then some "manifest"
  else if k = "audio/a1.mp3" then some "A1"
  else if k = "audio/a2.mp3" then some "A2"
  else if k = "other.txt" then some "other"
  else none


/-! ## Theorems -/

/-- C10: `get_confluence_credentials` caches its first result in the module
cache, so the first call sets the cache to exactly its result, and any later
call — whatever the environment or Secrets Manager say by then — returns the
identical dict and leaves the cache unchanged.  (Exception-freedom is
reflected by totality: the embedding covers every world, including Secrets
Manager failures and missing `boto3`.) -/
theorem c10_get_confluence_credentials_cached (w wLater : Secrets.World) :
    (Secrets.get_confluence_credentials none w).2
        = some (Secrets.get_confluence_credentials none w).1 ∧
    Secrets.get_confluence_credentials (Secrets.get_confluence_credentials none w).2 wLater
      = ((Secrets.get_confluence_credentials none w).1,
         (Secrets.get_confluence_credentials none w).2) := by
  have h1 : ∀ wx : Secrets.World, (Secrets.get_confluence_credentials none wx).2
      = some (Secrets.get_confluence_credentials none wx).1 := by
    intro wx
    unfold Secrets.get_confluence_credentials
    repeat' split
    all_goals rfl
  refine ⟨h1 w, ?_⟩
  rw [h1 w]
  rfl

/-- C5: every job record written to storage is a JSON object with keys
`job_id` and `status`; `progress`, `result` and `error` appear exactly when
a truthy (non-empty) value was supplied; and each writer uses the key
`jobs/{job_id}.json` — the `update_job_status` closure by construction, and
the initial async record through the `s3Put` effect of the async branch
(last write wins in the store). -/
theorem c5_job_record_shape (jobId status : String) (requestId : Option String)
    (progress result error : Option JVal) (url : String) (ctx : Crawl.LambdaCtx)
    (inp : Crawl.SummarizeInputs) (summaryResp : JVal) (bucket : String)
    (hb : inp.s3Bucket = some bucket) :
    (Crawl.update_job_status_record jobId requestId status progress result error).1
        = "jobs/" ++ jobId ++ ".json" ∧
    (Crawl.update_job_status_record jobId requestId status progress result error).2.getField "job_id"
        = some (.str jobId) ∧
    (Crawl.update_job_status_record jobId requestId status progress result error).2.getField "status"
        = some (.str status) ∧
    ((∃ v, (Crawl.update_job_status_record jobId requestId status progress result error).2.getField "progress" = some v)
        ↔ optJTruthy progress = true) ∧
    ((∃ v, (Crawl.update_job_status_record jobId requestId status progress result error).2.getField "result" = some v)
        ↔ optJTruthy result = true) ∧
    ((∃ v, (Crawl.update_job_status_record jobId requestId status progress result error).2.getField "error" = some v)
        ↔ optJTruthy error = true) ∧
    (Crawl.initialJobRecord jobId ctx.awsRequestId url).getField "job_id" = some (.str jobId) ∧
    (Crawl.initialJobRecord jobId ctx.awsRequestId url).getField "status" = some (.str "processing") ∧
    (∃ rest, (Crawl.summarizeStage true true jobId ctx inp summaryResp).1
        = Crawl.Effect.s3Put bucket ("jobs/" ++ jobId ++ ".json")
            (Crawl.initialJobRecord jobId ctx.awsRequestId inp.url) "application/json" :: rest) := by
  cases hp : optJTruthy progress <;> cases hr : optJTruthy result <;> cases he : optJTruthy error <;>
    simp [Crawl.update_job_status_record, Crawl.initialJobRecord, Crawl.summarizeStage, hb,
          JVal.getField, List.lookup, hp, hr, he]

/-- Witness for C5 at a concrete input: the update record for job "j1" with
a progress string but no result/error goes to key `jobs/j1.json`, and the
`result` key is absent exactly because no value was supplied. -/
theorem c5_job_record_shape_witness :
    inpEx.s3Bucket = some "bkt" ∧
    (Crawl.update_job_status_record "j1" (some "r") "completed"
        (some (.str "50%")) none none).1 = "jobs/j1.json" ∧
    ((∃ v, (Crawl.update_job_status_record "j1" (some "r") "completed"
        (some (.str "50%")) none none).2.getField "result" = some v)
      ↔ optJTruthy (none : Option JVal) = true) :=
  ⟨rfl,
   ((c5_job_record_shape "j1" "completed" (some "r") (some (.str "50%")) none none
      "u" ⟨some "r", some "fn"⟩ inpEx .null "bkt" rfl).1).trans (by decide),
   (c5_job_record_shape "j1" "completed" (some "r") (some (.str "50%")) none none
      "u" ⟨some "r", some "fn"⟩ inpEx .null "bkt" rfl).2.2.2.2.1⟩

/-- C1: with a Bedrock helper importable and the request body's `async`
flag truthy, the summarization stage (given a configured bucket) first
writes the initial job record — status `"processing"`, id `job_id` — to
`jobs/{job_id}.json`, then re-invokes the function asynchronously
(InvocationType `"Event"`, action `"process_job"`), and answers 202 with
that `job_id` and the basic content; no inline summarization effect
occurs. -/
theorem c1_async_job_start (body : JVal) (jobId : String) (ctx : Crawl.LambdaCtx)
    (inp : Crawl.SummarizeInputs) (summaryResp : JVal) (bucket : String)
    (hasync : Crawl.asyncRequested body = true)
    (hb : inp.s3Bucket = some bucket) :
    (Crawl.summarizeStage true (Crawl.asyncRequested body) jobId ctx inp summaryResp).1
      = [Crawl.Effect.s3Put bucket ("jobs/" ++ jobId ++ ".json")
           (Crawl.initialJobRecord jobId ctx.awsRequestId inp.url) "application/json",
         Crawl.Effect.lambdaInvoke (ctx.functionName.getD "aws-lambda-crawler") "Event"
           (.obj [("action", .str "process_job"),
                  ("body", Crawl.asyncJobPayload jobId inp bucket)])] ∧
    (Crawl.initialJobRecord jobId ctx.awsRequestId inp.url).getField "job_id"
        = some (.str jobId) ∧
    (Crawl.initialJobRecord jobId ctx.awsRequestId inp.url).getField "status"
        = some (.str "processing") ∧
    (Crawl.summarizeStage true (Crawl.asyncRequested body) jobId ctx inp summaryResp).2.statusCode
        = 202 ∧
    (Crawl.summarizeStage true (Crawl.asyncRequested body) jobId ctx inp summaryResp).2.body.getField "job_id"
        = some (.str jobId) ∧
    (Crawl.summarizeStage true (Crawl.asyncRequested body) jobId ctx inp summaryResp).2.body.getField "basic_content"
        = some inp.responsePayload ∧
    ∀ e ∈ (Crawl.summarizeStage true (Crawl.asyncRequested body) jobId ctx inp summaryResp).1,
      ∀ t, e ≠ Crawl.Effect.bedrockSummarize t := by
  rw [hasync]
  simp [Crawl.summarizeStage, hb, Crawl.initialJobRecord, JVal.getField, List.lookup]

/-- Witness for C1 at a concrete input: a body `{"async": true}` and the
concrete stage inputs produce the 202 response carrying the job id. -/
theorem c1_async_job_start_witness :
    Crawl.asyncRequested (.obj [("async", .bool true)]) = true ∧
    inpEx.s3Bucket = some "bkt" ∧
    (Crawl.summarizeStage true (Crawl.asyncRequested (.obj [("async", .bool true)]))
        "j1" ⟨some "r", some "fn"⟩ inpEx .null).2.statusCode = 202 ∧
    (Crawl.summarizeStage true (Crawl.asyncRequested (.obj [("async", .bool true)]))
        "j1" ⟨some "r", some "fn"⟩ inpEx .null).2.body.getField "job_id"
      = some (.str "j1") :=
  ⟨rfl, rfl,
   (c1_async_job_start (.obj [("async", .bool true)]) "j1" ⟨some "r", some "fn"⟩
      inpEx .null "bkt" rfl rfl).2.2.2.1,
   (c1_async_job_start (.obj [("async", .bool true)]) "j1" ⟨some "r", some "fn"⟩
      inpEx .null "bkt" rfl rfl).2.2.2.2.1⟩

/-- C2 counterexample: an event whose top-level `action` is `"process_job"`
but whose `httpMethod` is `"OPTIONS"` is answered by the CORS preflight
response (handler.py line 184 runs first), not handed to
`_process_async_job`. -/
theorem c2_dispatch_counterexample :
    Crawl.dispatch envNone s3None true (.ok [])
        (.obj [("httpMethod", .str "OPTIONS"), ("action", .str "process_job")])
      = .respond ⟨200, .str ""⟩ ∧
    Crawl.dispatch envNone s3None true (.ok [])
        (.obj [("httpMethod", .str "OPTIONS"), ("action", .str "process_job")])
      ≠ Crawl.Dispatch.processJob := by
  refine ⟨rfl, ?_⟩
  intro h
  have h2 : Crawl.Dispatch.respond ⟨200, .str ""⟩ = Crawl.Dispatch.processJob := h
  exact Crawl.Dispatch.noConfusion h2

/-- C2 (amended): for an event that is not an OPTIONS preflight, a top-level
`action` of `"process_job"` is handed straight to `_process_async_job`; and
when additionally the top-level `action` is not `"process_job"`, a truthy
JSON body whose `action` is `"job_status"`, `"check_models"` or
`"diagnostics"` receives the corresponding dispatch response.  In every one
of these cases the outcome is not `continueCrawl`, the only outcome under
which the handler goes on to fetch or parse a URL. -/
theorem c2_dispatch_order (env : Env) (s3 : Crawl.S3Read) (helpers : Bool)
    (checkAccess : Except String (List String)) (event : JVal)
    (hopt : Crawl.fieldIsStr event "httpMethod" "OPTIONS" = false) :
    (Crawl.fieldIsStr event "action" "process_job" = true →
       Crawl.dispatch env s3 helpers checkAccess event = .processJob) ∧
    (Crawl.fieldIsStr event "action" "process_job" = false →
       ∀ b, event.getField "body" = some b → b.truthy = true →
         (Crawl.bodyAction b = some "job_status" →
            Crawl.dispatch env s3 helpers checkAccess event
              = .respond (Crawl.jobStatusResponse env s3 b)) ∧
         (∀ a, Crawl.bodyAction b = some a →
            (a = "check_models" ∨ a = "diagnostics") →
            Crawl.dispatch env s3 helpers checkAccess event
              = .respond (Crawl.modelsResponse env helpers checkAccess a))) := by
  constructor
  · intro hpj
    simp [Crawl.dispatch, hopt, hpj]
  · intro hpj b hbody htr
    constructor
    · intro hact
      simp [Crawl.dispatch, hopt, hpj, hbody, htr, hact]
    · intro a hact hcm
      rcases hcm with rfl | rfl <;>
        simp [Crawl.dispatch, hopt, hpj, hbody, htr, hact]

/-- Witness for C2 (amended) at concrete inputs: a plain `process_job`
event is handed off, and a truthy body with action `"job_status"` gets the
poll response. -/
theorem c2_dispatch_order_witness :
    Crawl.fieldIsStr (.obj [("action", .str "process_job")]) "httpMethod" "OPTIONS" = false ∧
    Crawl.dispatch envNone s3None true (.ok []) (.obj [("action", .str "process_job")])
      = .processJob ∧
    Crawl.dispatch envNone s3None true (.ok [])
        (.obj [("body", .obj [("action", .str "job_status")])])
      = .respond (Crawl.jobStatusResponse envNone s3None (.obj [("action", .str "job_status")])) :=
  ⟨rfl,
   (c2_dispatch_order envNone s3None true (.ok []) (.obj [("action", .str "process_job")]) rfl).1 rfl,
   ((c2_dispatch_order envNone s3None true (.ok [])
      (.obj [("body", .obj [("action", .str "job_status")])]) rfl).2 rfl
      (.obj [("action", .str "job_status")]) rfl rfl).1 rfl⟩

/-- C8: with the upload bucket configured, a `job_status` poll with a falsy
or missing `job_id` yields 400 `"missing job_id"`; with a truthy `job_id`,
a stored record comes back verbatim with 200, a `NoSuchKey` error yields
404 `"job not found"` echoing the job id, and any other client error yields
500. -/
theorem c8_job_status_cases (env : Env) (s3 : Crawl.S3Read) (b : JVal) (bucket : String)
    (hbucket : Crawl.resolveBucket env = some bucket) (hbne : bucket ≠ "") :
    (optJTruthy (b.getField "job_id") = false →
       Crawl.jobStatusResponse env s3 b = ⟨400, .obj [("error", .str "missing job_id")]⟩) ∧
    (∀ jid, b.getField "job_id" = some jid → jid.truthy = true →
       (∀ jobData, s3 bucket ("jobs/" ++ jid.pyStr ++ ".json") = .ok jobData →
          Crawl.jobStatusResponse env s3 b = ⟨200, jobData⟩) ∧
       (s3 bucket ("jobs/" ++ jid.pyStr ++ ".json") = .error .noSuchKey →
          Crawl.jobStatusResponse env s3 b
            = ⟨404, .obj [("error", .str "job not found"), ("job_id", jid)]⟩) ∧
       (∀ m, s3 bucket ("jobs/" ++ jid.pyStr ++ ".json") = .error (.clientError m) →
          Crawl.jobStatusResponse env s3 b
            = ⟨500, .obj [("error", .str ("failed to get job status: " ++ m))]⟩)) := by
  have hne : bucket.isEmpty = false := by
    cases hk : bucket.isEmpty
    · rfl
    · exact absurd ((String.isEmpty_iff _).mp hk) hbne
  constructor
  · intro hfalsy
    simp [Crawl.jobStatusResponse, hfalsy]
  · intro jid hjid htr
    refine ⟨?_, ?_, ?_⟩
    · intro jobData hs3
      simp [Crawl.jobStatusResponse, hjid, optJTruthy, htr, hbucket, strOptTruthy, hne, hs3]
    · intro hs3
      simp [Crawl.jobStatusResponse, hjid, optJTruthy, htr, hbucket, strOptTruthy, hne, hs3]
    · intro m hs3
      simp [Crawl.jobStatusResponse, hjid, optJTruthy, htr, hbucket, strOptTruthy, hne, hs3]

/-- Witness for C8 at concrete inputs: with bucket "bkt" configured, polling
job "abc" returns its stored record with 200, and polling missing job "zzz"
returns 404 echoing the id. -/
theorem c8_job_status_cases_witness :
    Crawl.resolveBucket (fun k => if k = "S3_UPLOAD_BUCKET" then some "bkt" else none)
      = some "bkt" ∧
    Crawl.jobStatusResponse (fun k => if k = "S3_UPLOAD_BUCKET" then some "bkt" else none)
        (fun _ k => if k = "jobs/abc.json"
          then .ok (.obj [("job_id", .str "abc"), ("status", .str "completed")])
          else .error .noSuchKey)
        (.obj [("job_id", .str "abc")])
      = ⟨200, .obj [("job_id", .str "abc"), ("status", .str "completed")]⟩ ∧
    Crawl.jobStatusResponse (fun k => if k = "S3_UPLOAD_BUCKET" then some "bkt" else none)
        (fun _ k => if k = "jobs/abc.json"
          then .ok (.obj [("job_id", .str "abc"), ("status", .str "completed")])
          else .error .noSuchKey)
        (.obj [("job_id", .str "zzz")])
      = ⟨404, .obj [("error", .str "job not found"), ("job_id", .str "zzz")]⟩ :=
  ⟨rfl,
   (((c8_job_status_cases (fun k => if k = "S3_UPLOAD_BUCKET" then some "bkt" else none)
        (fun _ k => if k = "jobs/abc.json"
          then .ok (.obj [("job_id", .str "abc"), ("status", .str "completed")])
          else .error .noSuchKey)
        (.obj [("job_id", .str "abc")]) "bkt" rfl (by decide)).2
      (.str "abc") rfl rfl).1
      (.obj [("job_id", .str "abc"), ("status", .str "completed")]) rfl),
   (((c8_job_status_cases (fun k => if k = "S3_UPLOAD_BUCKET" then some "bkt" else none)
        (fun _ k => if k = "jobs/abc.json"
          then .ok (.obj [("job_id", .str "abc"), ("status", .str "completed")])
          else .error .noSuchKey)
        (.obj [("job_id", .str "zzz")]) "bkt" rfl (by decide)).2
      (.str "zzz") rfl rfl).2.1 rfl)⟩

/-- C3: the handler sorts the manifest's highlights ascending by `order`
(a missing `order` sorts as 9999 via `segmentSortKey`), walks the sorted
list to create intermediate videos, and the concatenation list — the
successfully processed segments in creation order, `processedSegments` —
is itself sorted ascending by that key; the sorted list is a permutation of
the manifest list. -/
theorem c3_segments_processed_in_order (success : VideoProc.Segment → Bool)
    (hs : List VideoProc.Segment) :
    (VideoProc.sortHighlights hs).Perm hs ∧
    List.Sorted (fun a b => VideoProc.segmentSortKey a ≤ VideoProc.segmentSortKey b)
      (VideoProc.sortHighlights hs) ∧
    VideoProc.processedSegments success hs
      = (VideoProc.sortHighlights hs).filter (fun s => VideoProc.audioTruthy s && success s) ∧
    List.Sorted (fun a b => VideoProc.segmentSortKey a ≤ VideoProc.segmentSortKey b)
      (VideoProc.processedSegments success hs) := by
  have htrans : ∀ a b c : VideoProc.Segment,
      decide (VideoProc.segmentSortKey a ≤ VideoProc.segmentSortKey b) = true →
      decide (VideoProc.segmentSortKey b ≤ VideoProc.segmentSortKey c) = true →
      decide (VideoProc.segmentSortKey a ≤ VideoProc.segmentSortKey c) = true := by
    intro a b c hab hbc
    simp only [decide_eq_true_eq] at hab hbc ⊢
    omega
  have htotal : ∀ a b : VideoProc.Segment,
      (decide (VideoProc.segmentSortKey a ≤ VideoProc.segmentSortKey b)
        || decide (VideoProc.segmentSortKey b ≤ VideoProc.segmentSortKey a)) = true := by
    intro a b
    simp only [Bool.or_eq_true, decide_eq_true_eq]
    omega
  have hsorted : List.Sorted (fun a b => VideoProc.segmentSortKey a ≤ VideoProc.segmentSortKey b)
      (VideoProc.sortHighlights hs) := by
    have h := List.sorted_mergeSort htrans htotal hs
    exact h.imp (fun hab => by simpa using hab)
  refine ⟨List.mergeSort_perm hs _, hsorted, rfl, ?_⟩
  exact List.Pairwise.filter _ hsorted

/-- The snippet slice is bounded by a non-negative bound. -/
theorem pySliceTo_length_le (s : String) (n : Int) (hn : 0 ≤ n) :
    ((HtmlParse.pySliceTo s n).length : Int) ≤ n := by
  unfold HtmlParse.pySliceTo
  rw [if_pos hn]
  have hlen : (String.mk (s.data.take n.toNat)).length = (s.data.take n.toNat).length := rfl
  rw [hlen, List.length_take]
  have h1 : n.toNat ⊓ s.data.length ≤ n.toNat := inf_le_left
  omega

/-- C9 counterexample: the claim fails for a negative resolved bound.  With
`max_snippet_chars = -3` and page text `"hello"` (no body, no title tag,
`full_text=False`), Python slicing returns `"he"` — length 2, which is not
`≤ -3`. -/
theorem c9_parse_html_counterexample :
    (HtmlParse.parse_html soupCex (some (-3)) false false "" envNone).lookup "text_snippet"
      = some (.str "he") ∧
    ¬ ((("he" : String).length : Int) ≤ HtmlParse.resolveMaxSnippet (some (-3)) envNone) := by
  refine ⟨rfl, ?_⟩
  decide

/-- C9 (amended): whenever the resolved snippet bound — the explicit
argument when given, else `int(PARSE_SNIPPET_MAX)`, else 400 — is
non-negative, `parse_html` with `full_text=False` returns a `text_snippet`
of at most that many characters (a negative bound instead truncates from
the end, per Python slicing); the result always carries a `title` key
holding the title text or `""`; and the media/reference keys are present
exactly when `extract_resources` is true and `base_url` is non-empty. -/
theorem c9_parse_html_shape (soup : HtmlParse.Soup) (maxArg : Option Int)
    (extractResources : Bool) (baseUrl : String) (env : Env)
    (hnn : 0 ≤ HtmlParse.resolveMaxSnippet maxArg env) :
    (∃ s : String,
       (HtmlParse.parse_html soup maxArg false extractResources baseUrl env).lookup "text_snippet"
         = some (.str s) ∧
       (s.length : Int) ≤ HtmlParse.resolveMaxSnippet maxArg env) ∧
    (HtmlParse.parse_html soup maxArg false extractResources baseUrl env).lookup "title"
      = some (.str (soup.titleText.getD "")) ∧
    ((extractResources = false ∨ baseUrl = "") →
       HtmlParse.parse_html soup maxArg false extractResources baseUrl env
         = [("title", .str (soup.titleText.getD "")),
            ("text_snippet", .str (HtmlParse.pySliceTo (HtmlParse.soupText soup)
              (HtmlParse.resolveMaxSnippet maxArg env)))]) ∧
    (extractResources = true → baseUrl ≠ "" →
       HtmlParse.parse_html soup maxArg false extractResources baseUrl env
         = [("title", .str (soup.titleText.getD "")),
            ("text_snippet", .str (HtmlParse.pySliceTo (HtmlParse.soupText soup)
              (HtmlParse.resolveMaxSnippet maxArg env)))] ++ soup.media.fields) := by
  have hemp : ∀ h : baseUrl ≠ "", baseUrl.isEmpty = false := by
    intro h
    cases hk : baseUrl.isEmpty
    · rfl
    · exact absurd ((String.isEmpty_iff _).mp hk) h
  refine ⟨?_, ?_, ?_, ?_⟩
  · refine ⟨HtmlParse.pySliceTo (HtmlParse.soupText soup) (HtmlParse.resolveMaxSnippet maxArg env),
      ?_, pySliceTo_length_le _ _ hnn⟩
    by_cases hx : extractResources && !baseUrl.isEmpty
    · simp [HtmlParse.parse_html, hx, List.lookup]
    · simp [HtmlParse.parse_html, hx, List.lookup]
  · by_cases hx : extractResources && !baseUrl.isEmpty
    · simp [HtmlParse.parse_html, hx, List.lookup]
    · simp [HtmlParse.parse_html, hx, List.lookup]
  · intro hoff
    have hx : (extractResources && !baseUrl.isEmpty) = false := by
      rcases hoff with rfl | rfl
      · simp
      · simp [show "".isEmpty = true from rfl]
    simp [HtmlParse.parse_html, hx]
  · intro hon hbne
    have hx : (extractResources && !baseUrl.isEmpty) = true := by
      simp [hon, hemp hbne]
    simp [HtmlParse.parse_html, hx]

/-- Witness for C9 (amended) at a concrete input: with the default bound
(400) and text `"hello"`, the snippet is returned in full and is within the
bound, and the `title` key is the empty string. -/
theorem c9_parse_html_shape_witness :
    (0 : Int) ≤ HtmlParse.resolveMaxSnippet none envNone ∧
    (∃ s : String,
       (HtmlParse.parse_html soupCex none false false "" envNone).lookup "text_snippet"
         = some (.str s) ∧
       (s.length : Int) ≤ HtmlParse.resolveMaxSnippet none envNone) ∧
    (HtmlParse.parse_html soupCex none false false "" envNone).lookup "title"
      = some (.str "") :=
  ⟨by decide,
   (c9_parse_html_shape soupCex none false "" envNone (by decide)).1,
   (c9_parse_html_shape soupCex none false "" envNone (by decide)).2.1⟩

/-- The chunk loop partitions its input: the chunks flatten back to the
pending accumulator followed by the remaining words. -/
theorem chunkLoop_flatten (maxW : Nat) (ws : List String) :
    ∀ acc, (VideoProc.chunkLoop maxW acc ws).flatten = acc ++ ws := by
  induction ws with
  | nil =>
    intro acc
    cases h : acc.isEmpty
    · simp [VideoProc.chunkLoop, h]
    · simp [VideoProc.chunkLoop, h, List.isEmpty_iff.mp h]
  | cons w ws ih =>
    intro acc
    simp only [VideoProc.chunkLoop]
    split
    · simp [ih []]
    · simp [ih (acc ++ [w])]

/-- Every chunk the loop emits holds at most `maxW` words, provided the
accumulator is not already full. -/
theorem chunkLoop_size (maxW : Nat) (ws : List String) :
    ∀ acc, acc.length < maxW →
      ∀ c ∈ VideoProc.chunkLoop maxW acc ws, c.length ≤ maxW := by
  induction ws with
  | nil =>
    intro acc hlt c hc
    cases h : acc.isEmpty
    · simp [VideoProc.chunkLoop, h] at hc
      subst hc
      omega
    · simp [VideoProc.chunkLoop, h] at hc
  | cons w ws ih =>
    intro acc hlt c hc
    simp only [VideoProc.chunkLoop] at hc
    split at hc
    · simp only [List.mem_cons] at hc
      rcases hc with rfl | hc
      · simp only [List.length_append, List.length_cons, List.length_nil]
        omega
      · exact ih [] (by simp; omega) c hc
    · rename_i hcond
      simp only [Bool.or_eq_true, decide_eq_true_eq, not_or, List.length_append,
                 List.length_cons, List.length_nil] at hcond
      exact ih (acc ++ [w]) (by simp; omega) c hc

/-- Every chunk except possibly the last satisfies the closing condition:
it is full or its last word ends in pause punctuation. -/
theorem chunkLoop_closed (maxW : Nat) (ws : List String) :
    ∀ acc i, i + 1 < (VideoProc.chunkLoop maxW acc ws).length →
      VideoProc.closesChunk maxW ((VideoProc.chunkLoop maxW acc ws).getD i []) := by
  induction ws with
  | nil =>
    intro acc i hi
    cases h : acc.isEmpty
    · simp [VideoProc.chunkLoop, h] at hi
    · simp [VideoProc.chunkLoop, h] at hi
  | cons w ws ih =>
    intro acc i hi
    simp only [VideoProc.chunkLoop] at hi ⊢
    split at hi
    · rename_i hcond
      rw [if_pos hcond]
      cases i with
      | zero =>
        simp only [List.getD_cons_zero]
        rcases (Bool.or_eq_true _ _).mp hcond with hmax | hpause
        · exact Or.inl (by simpa using hmax)
        · exact Or.inr ⟨w, List.getLast?_concat _, hpause⟩
      | succ j =>
        simp only [List.getD_cons_succ]
        apply ih []
        simpa using hi
    · rename_i hcond
      rw [if_neg hcond]
      exact ih (acc ++ [w]) i hi

/-- No chunk closes early: at every non-final position of a chunk, the
chunk is still below the word limit and the word does not end in pause
punctuation (given the accumulator respects the same invariant). -/
theorem chunkLoop_noEarly (maxW : Nat) (ws : List String) :
    ∀ acc, acc.length < maxW → (∀ u ∈ acc, VideoProc.isPausePoint u = false) →
      ∀ c ∈ VideoProc.chunkLoop maxW acc ws, ∀ j, j + 1 < c.length →
        j + 1 < maxW ∧ VideoProc.isPausePoint (c.getD j "") = false := by
  induction ws with
  | nil =>
    intro acc hlt hnp c hc j hj
    cases h : acc.isEmpty
    · simp [VideoProc.chunkLoop, h] at hc
      subst hc
      refine ⟨by omega, ?_⟩
      apply hnp
      rw [List.getD_eq_getElem _ _ (by omega)]
      exact List.getElem_mem _
    · simp [VideoProc.chunkLoop, h] at hc
  | cons w ws ih =>
    intro acc hlt hnp c hc j hj
    simp only [VideoProc.chunkLoop] at hc
    split at hc
    · simp only [List.mem_cons] at hc
      rcases hc with rfl | hc
      · have hjl : j < acc.length := by
          simp only [List.length_append, List.length_cons, List.length_nil] at hj
          omega
        refine ⟨by omega, ?_⟩
        have hswap : (acc ++ [w]).getD j "" = acc.getD j "" := by
          rw [List.getD_eq_getElem _ _ (by simp; omega),
              List.getD_eq_getElem _ _ hjl]
          exact List.getElem_append_left _
        rw [hswap]
        apply hnp
        rw [List.getD_eq_getElem _ _ hjl]
        exact List.getElem_mem _
      · exact ih [] (by simp; omega) (by simp) c hc j hj
    · rename_i hcond
      simp only [Bool.or_eq_true, decide_eq_true_eq, not_or, List.length_append,
                 List.length_cons, List.length_nil] at hcond
      have h2 : VideoProc.isPausePoint w = false := by
        cases hp : VideoProc.isPausePoint w
        · rfl
        · exact absurd hp hcond.2
      refine ih (acc ++ [w]) (by simp; omega) ?_ c hc j hj
      intro u hu
      rcases List.mem_append.mp hu with hu | hu
      · exact hnp u hu
      · simp only [List.mem_singleton] at hu
        subst hu
        exact h2

/-- C4: for `max_words_per_chunk ≥ 1`, the subtitle chunking of
`generate_timed_text_clips` (a) gives chunks of at most `maxW` words,
(c) concatenates back to the original word sequence with nothing lost,
duplicated or reordered, and (b) closes a chunk exactly at a full chunk or
a pause-punctuation word: every non-final chunk satisfies the closing
condition, and no chunk satisfies it before its final word. -/
theorem c4_subtitle_chunking (maxW : Nat) (hmax : 1 ≤ maxW) (ws : List String) :
    (VideoProc.chunkWords maxW ws).flatten = ws ∧
    (∀ c ∈ VideoProc.chunkWords maxW ws, c.length ≤ maxW) ∧
    (∀ i, i + 1 < (VideoProc.chunkWords maxW ws).length →
       VideoProc.closesChunk maxW ((VideoProc.chunkWords maxW ws).getD i [])) ∧
    (∀ c ∈ VideoProc.chunkWords maxW ws, ∀ j, j + 1 < c.length →
       j + 1 < maxW ∧ VideoProc.isPausePoint (c.getD j "") = false) := by
  refine ⟨?_, ?_, ?_, ?_⟩
  · simpa using chunkLoop_flatten maxW ws []
  · exact chunkLoop_size maxW ws [] (by simp; omega)
  · exact chunkLoop_closed maxW ws []
  · exact chunkLoop_noEarly maxW ws [] (by simp; omega) (by simp)

/-- Witness for C4 at a concrete input: chunk size 4 over
"Hello world, this is a test" closes at the comma and then at the fourth
word, and flattens back to the input. -/
theorem c4_subtitle_chunking_witness :
    1 ≤ 4 ∧
    VideoProc.chunkWords 4 ["Hello", "world,", "this", "is", "a", "test"]
      = [["Hello", "world,"], ["this", "is", "a", "test"]] ∧
    (VideoProc.chunkWords 4 ["Hello", "world,", "this", "is", "a", "test"]).flatten
      = ["Hello", "world,", "this", "is", "a", "test"] :=
  ⟨by decide, by decide,
   (c4_subtitle_chunking 4 (by decide) ["Hello", "world,", "this", "is", "a", "test"]).1⟩

/-- A move leaves every key other than its source and destination alone. -/
theorem move_s3_object_apply_other (st : VideoProc.Store) (o n k : String)
    (hko : k ≠ o) (hkn : k ≠ n) : VideoProc.move_s3_object st o n k = st k := by
  unfold VideoProc.move_s3_object
  cases hso : st o
  · rfl
  · simp [hko, hkn]

/-- A move of a present object makes the destination hold its value. -/
theorem move_s3_object_apply_dest (st : VideoProc.Store) (o n v : String)
    (hv : st o = some v) (hne : o ≠ n) : VideoProc.move_s3_object st o n n = some v := by
  unfold VideoProc.move_s3_object
  rw [hv]
  simp [Ne.symm hne]

/-- A move of a present object erases its source. -/
theorem move_s3_object_apply_src (st : VideoProc.Store) (o n v : String)
    (hv : st o = some v) : VideoProc.move_s3_object st o n o = none := by
  unfold VideoProc.move_s3_object
  rw [hv]
  simp

/-- A sequence of moves with pairwise-distinct sources, pairwise-distinct
destinations, sources disjoint from destinations, and all sources present:
untouched keys keep their value, each destination receives its source's
value, and each source is erased. -/
theorem movePairs_spec (pairs : List (String × String)) :
    ∀ st : VideoProc.Store,
      (pairs.map Prod.fst).Nodup →
      (pairs.map Prod.snd).Nodup →
      (∀ p ∈ pairs, ∀ q ∈ pairs, p.1 ≠ q.2) →
      (∀ p ∈ pairs, (st p.1).isSome) →
      ((∀ k, (∀ p ∈ pairs, k ≠ p.1 ∧ k ≠ p.2) → VideoProc.movePairs st pairs k = st k) ∧
       (∀ p ∈ pairs, VideoProc.movePairs st pairs p.2 = st p.1) ∧
       (∀ p ∈ pairs, VideoProc.movePairs st pairs p.1 = none)) := by
  induction pairs with
  | nil =>
    intro st _ _ _ _
    refine ⟨fun k _ => rfl, fun p hp => absurd hp (List.not_mem_nil p),
            fun p hp => absurd hp (List.not_mem_nil p)⟩
  | cons hd tl ih =>
    intro st hnf hns hdisj hpres
    obtain ⟨v, hv⟩ := Option.isSome_iff_exists.mp (hpres hd (List.mem_cons_self hd tl))
    have hdd : hd.1 ≠ hd.2 := hdisj hd (List.mem_cons_self hd tl) hd (List.mem_cons_self hd tl)
    have hnf1 : hd.1 ∉ tl.map Prod.fst := (List.nodup_cons.mp hnf).1
    have hnf2 : (tl.map Prod.fst).Nodup := (List.nodup_cons.mp hnf).2
    have hns1 : hd.2 ∉ tl.map Prod.snd := (List.nodup_cons.mp hns).1
    have hns2 : (tl.map Prod.snd).Nodup := (List.nodup_cons.mp hns).2
    have hq1hd2 : ∀ q ∈ tl, q.1 ≠ hd.2 := fun q hq =>
      hdisj q (List.mem_cons_of_mem hd hq) hd (List.mem_cons_self hd tl)
    have hhd1q2 : ∀ q ∈ tl, hd.1 ≠ q.2 := fun q hq =>
      hdisj hd (List.mem_cons_self hd tl) q (List.mem_cons_of_mem hd hq)
    have hq1hd1 : ∀ q ∈ tl, q.1 ≠ hd.1 := by
      intro q hq heq
      exact hnf1 (heq ▸ List.mem_map_of_mem Prod.fst hq)
    have hq2hd2 : ∀ q ∈ tl, q.2 ≠ hd.2 := by
      intro q hq heq
      exact hns1 (heq ▸ List.mem_map_of_mem Prod.snd hq)
    have hst1 : ∀ q ∈ tl, VideoProc.move_s3_object st hd.1 hd.2 q.1 = st q.1 := by
      intro q hq
      exact move_s3_object_apply_other st hd.1 hd.2 q.1 (hq1hd1 q hq) (hq1hd2 q hq)
    have hpres1 : ∀ q ∈ tl, (VideoProc.move_s3_object st hd.1 hd.2 q.1).isSome := by
      intro q hq
      rw [hst1 q hq]
      exact hpres q (List.mem_cons_of_mem hd hq)
    have hdisj1 : ∀ p ∈ tl, ∀ q ∈ tl, p.1 ≠ q.2 := fun p hp q hq =>
      hdisj p (List.mem_cons_of_mem hd hp) q (List.mem_cons_of_mem hd hq)
    obtain ⟨ha, hb, hc⟩ := ih (VideoProc.move_s3_object st hd.1 hd.2) hnf2 hns2 hdisj1 hpres1
    have hfold : VideoProc.movePairs st (hd :: tl)
        = VideoProc.movePairs (VideoProc.move_s3_object st hd.1 hd.2) tl := rfl
    refine ⟨?_, ?_, ?_⟩
    · intro k hk
      obtain ⟨hk1, hk2⟩ := hk hd (List.mem_cons_self hd tl)
      rw [hfold, ha k (fun p hp => hk p (List.mem_cons_of_mem hd hp))]
      exact move_s3_object_apply_other st hd.1 hd.2 k hk1 hk2
    · intro p hp
      rcases List.mem_cons.mp hp with rfl | hp'
      · rw [hfold, ha p.2 ?side, hv]
        · exact move_s3_object_apply_dest st p.1 p.2 v hv hdd
        case side =>
          intro q hq
          exact ⟨fun heq => hq1hd2 q hq heq.symm, fun heq => hq2hd2 q hq heq.symm⟩
      · rw [hfold, hb p hp', hst1 p hp']
    · intro p hp
      rcases List.mem_cons.mp hp with rfl | hp'
      · rw [hfold, ha p.1 ?side2]
        · exact move_s3_object_apply_src st p.1 p.2 v hv
        case side2 =>
          intro q hq
          refine ⟨fun heq => hq1hd1 q hq heq.symm, hhd1q2 q hq⟩
      · rw [hfold, hc p hp']

/-- C6: after the final video is uploaded, the archival step moves the JSON
manifest and exactly the successfully processed audio keys into
`processed-input/{compilation_id}/` — each destination receives the stored
object, each source key is deleted, and every key that is neither a moved
source nor one of those destinations is untouched; `move_s3_object` itself
copies to the new key and then deletes the original.  (The disjointness and
presence hypotheses say the move list is sane: distinct sources, distinct
destinations, no source used as a destination, sources present.) -/
theorem c6_archive_step (st : VideoProc.Store)
    (jsonKey archivedJsonName compilationId : String) (audioKeys : List String)
    (hnf : ((VideoProc.archivePairs jsonKey archivedJsonName compilationId audioKeys).map Prod.fst).Nodup)
    (hns : ((VideoProc.archivePairs jsonKey archivedJsonName compilationId audioKeys).map Prod.snd).Nodup)
    (hdisj : ∀ p ∈ VideoProc.archivePairs jsonKey archivedJsonName compilationId audioKeys,
       ∀ q ∈ VideoProc.archivePairs jsonKey archivedJsonName compilationId audioKeys, p.1 ≠ q.2)
    (hpres : ∀ p ∈ VideoProc.archivePairs jsonKey archivedJsonName compilationId audioKeys,
       (st p.1).isSome) :
    VideoProc.archiveStep st jsonKey archivedJsonName compilationId audioKeys
        (VideoProc.pyPathJoin (VideoProc.archiveFolder compilationId) archivedJsonName)
      = st jsonKey ∧
    VideoProc.archiveStep st jsonKey archivedJsonName compilationId audioKeys jsonKey = none ∧
    (∀ a ∈ audioKeys,
       VideoProc.archiveStep st jsonKey archivedJsonName compilationId audioKeys
           (VideoProc.pyPathJoin (VideoProc.archiveFolder compilationId) a)
         = st a ∧
       VideoProc.archiveStep st jsonKey archivedJsonName compilationId audioKeys a = none) ∧
    (∀ k, k ≠ jsonKey → k ∉ audioKeys →
       k ≠ VideoProc.pyPathJoin (VideoProc.archiveFolder compilationId) archivedJsonName →
       (∀ a ∈ audioKeys, k ≠ VideoProc.pyPathJoin (VideoProc.archiveFolder compilationId) a) →
       VideoProc.archiveStep st jsonKey archivedJsonName compilationId audioKeys k = st k) ∧
    (∀ (s : VideoProc.Store) (o n v : String), s o = some v → o ≠ n →
       VideoProc.move_s3_object s o n n = some v ∧ VideoProc.move_s3_object s o n o = none) := by
  obtain ⟨ha, hb, hc⟩ := movePairs_spec
    (VideoProc.archivePairs jsonKey archivedJsonName compilationId audioKeys) st hnf hns hdisj hpres
  have hstep : ∀ k, VideoProc.archiveStep st jsonKey archivedJsonName compilationId audioKeys k
      = VideoProc.movePairs st (VideoProc.archivePairs jsonKey archivedJsonName compilationId audioKeys) k :=
    fun _ => rfl
  have hheadmem : (jsonKey, VideoProc.pyPathJoin (VideoProc.archiveFolder compilationId) archivedJsonName)
      ∈ VideoProc.archivePairs jsonKey archivedJsonName compilationId audioKeys :=
    List.mem_cons_self _ _
  have haudmem : ∀ a ∈ audioKeys,
      (a, VideoProc.pyPathJoin (VideoProc.archiveFolder compilationId) a)
        ∈ VideoProc.archivePairs jsonKey archivedJsonName compilationId audioKeys := by
    intro a hain
    exact List.mem_cons_of_mem _
      (List.mem_map_of_mem (fun k => (k, VideoProc.pyPathJoin (VideoProc.archiveFolder compilationId) k)) hain)
  refine ⟨?_, ?_, ?_, ?_, ?_⟩
  · rw [hstep]
    exact hb _ hheadmem
  · rw [hstep]
    exact hc _ hheadmem
  · intro a hain
    constructor
    · rw [hstep]
      exact hb _ (haudmem a hain)
    · rw [hstep]
      exact hc _ (haudmem a hain)
  · intro k hkj hkaud hkjd hkad
    rw [hstep]
    apply ha k
    intro p hp
    rcases List.mem_cons.mp hp with rfl | hp'
    · exact ⟨hkj, hkjd⟩
    · obtain ⟨a, hain, rfl⟩ := List.mem_map.mp hp'
      exact ⟨fun heq => hkaud (heq ▸ hain), hkad a hain⟩
  · intro s o n v hv hne
    exact ⟨move_s3_object_apply_dest s o n v hv hne, move_s3_object_apply_src s o n v hv⟩

/-- Witness for C6 at a concrete store: the manifest and the two audio keys
are moved under `processed-input/c1/`, their sources vanish, and the
unrelated key `other.txt` is untouched. -/
theorem c6_archive_step_witness :
    VideoProc.archiveStep storeEx "h.json" "h_2024.json" "c1" ["audio/a1.mp3", "audio/a2.mp3"]
        (VideoProc.pyPathJoin (VideoProc.archiveFolder "c1") "h_2024.json")
      = some "manifest" ∧
    VideoProc.archiveStep storeEx "h.json" "h_2024.json" "c1" ["audio/a1.mp3", "audio/a2.mp3"]
        "h.json" = none ∧
    VideoProc.archiveStep storeEx "h.json" "h_2024.json" "c1" ["audio/a1.mp3", "audio/a2.mp3"]
        (VideoProc.pyPathJoin (VideoProc.archiveFolder "c1") "audio/a2.mp3")
      = some "A2" ∧
    VideoProc.archiveStep storeEx "h.json" "h_2024.json" "c1" ["audio/a1.mp3", "audio/a2.mp3"]
        "other.txt" = some "other" :=
  ⟨((c6_archive_step storeEx "h.json" "h_2024.json" "c1" ["audio/a1.mp3", "audio/a2.mp3"]
      (by decide) (by decide) (by decide) (by decide)).1).trans (by decide),
   (c6_archive_step storeEx "h.json" "h_2024.json" "c1" ["audio/a1.mp3", "audio/a2.mp3"]
      (by decide) (by decide) (by decide) (by decide)).2.1,
   (((c6_archive_step storeEx "h.json" "h_2024.json" "c1" ["audio/a1.mp3", "audio/a2.mp3"]
      (by decide) (by decide) (by decide) (by decide)).2.2.1 "audio/a2.mp3" (by decide)).1).trans (by decide),
   ((c6_archive_step storeEx "h.json" "h_2024.json" "c1" ["audio/a1.mp3", "audio/a2.mp3"]
      (by decide) (by decide) (by decide) (by decide)).2.2.2.1 "other.txt" (by decide) (by decide)
      (by decide) (by decide)).trans (by decide)⟩

/-- Python `int()` agrees with the floor on non-negative rationals. -/
theorem pyInt_eq_floor (q : ℚ) (hq : 0 ≤ q) : VideoProc.pyInt q = ⌊q⌋ := by
  unfold VideoProc.pyInt
  rw [Rat.floor_def, Int.tdiv_eq_ediv (Rat.num_nonneg.mpr hq) (by positivity)]

/-- The forced output name always ends (case-insensitively) in ".png". -/
theorem pngOutputName_png (p : String) :
    VideoProc.lowerEndsWithPng (VideoProc.pngOutputName p) = true := by
  unfold VideoProc.pngOutputName
  split
  · assumption
  · unfold VideoProc.lowerEndsWithPng
    rw [String.data_append, List.map_append]
    have h4 : (".png".data.map Char.toLower) = ".png".data := by decide
    rw [h4]
    exact (List.isSuffixOf_iff_suffix).mpr (List.suffix_append _ _)

/-- C7: for positive source dimensions, `resize_and_crop_image` scales both
dimensions by the single factor `min(tw/w, th/h)`, so the scaled sizes are
non-negative and never exceed the targets; the centering offsets are the
floored halves of the leftover space and are non-negative; the scaled image
placed at those offsets stays entirely inside the `tw x th` canvas (nothing
is cropped); the canvas is exactly the target size; and the saved file name
is always a `.png` name. -/
theorem c7_resize_fit_layout (w h tw th : Nat) (hw : 0 < w) (hh : 0 < h) :
    (0 ≤ (VideoProc.resize_and_crop_layout w h tw th).newWidth ∧
     (VideoProc.resize_and_crop_layout w h tw th).newWidth ≤ (tw : Int)) ∧
    (0 ≤ (VideoProc.resize_and_crop_layout w h tw th).newHeight ∧
     (VideoProc.resize_and_crop_layout w h tw th).newHeight ≤ (th : Int)) ∧
    (VideoProc.resize_and_crop_layout w h tw th).xOffset
      = Int.fdiv ((tw : Int) - (VideoProc.resize_and_crop_layout w h tw th).newWidth) 2 ∧
    (VideoProc.resize_and_crop_layout w h tw th).yOffset
      = Int.fdiv ((th : Int) - (VideoProc.resize_and_crop_layout w h tw th).newHeight) 2 ∧
    (0 ≤ (VideoProc.resize_and_crop_layout w h tw th).xOffset ∧
     (VideoProc.resize_and_crop_layout w h tw th).xOffset
       + (VideoProc.resize_and_crop_layout w h tw th).newWidth ≤ (tw : Int)) ∧
    (0 ≤ (VideoProc.resize_and_crop_layout w h tw th).yOffset ∧
     (VideoProc.resize_and_crop_layout w h tw th).yOffset
       + (VideoProc.resize_and_crop_layout w h tw th).newHeight ≤ (th : Int)) ∧
    (VideoProc.resize_and_crop_layout w h tw th).canvasWidth = (tw : Int) ∧
    (VideoProc.resize_and_crop_layout w h tw th).canvasHeight = (th : Int) ∧
    (∀ p : String, VideoProc.lowerEndsWithPng (VideoProc.pngOutputName p) = true) := by
  have hw0 : (0 : ℚ) < (w : ℚ) := by exact_mod_cast hw
  have hh0 : (0 : ℚ) < (h : ℚ) := by exact_mod_cast hh
  have hs0 : 0 ≤ min ((tw : ℚ) / (w : ℚ)) ((th : ℚ) / (h : ℚ)) :=
    le_min (by positivity) (by positivity)
  have hwq : 0 ≤ (w : ℚ) * min ((tw : ℚ) / (w : ℚ)) ((th : ℚ) / (h : ℚ)) :=
    mul_nonneg (by positivity) hs0
  have hhq : 0 ≤ (h : ℚ) * min ((tw : ℚ) / (w : ℚ)) ((th : ℚ) / (h : ℚ)) :=
    mul_nonneg (by positivity) hs0
  have hwle : (w : ℚ) * min ((tw : ℚ) / (w : ℚ)) ((th : ℚ) / (h : ℚ)) ≤ (tw : ℚ) := by
    calc (w : ℚ) * min ((tw : ℚ) / (w : ℚ)) ((th : ℚ) / (h : ℚ))
        ≤ (w : ℚ) * ((tw : ℚ) / (w : ℚ)) :=
          mul_le_mul_of_nonneg_left (min_le_left _ _) (le_of_lt hw0)
      _ = (tw : ℚ) := by field_simp
  have hhle : (h : ℚ) * min ((tw : ℚ) / (w : ℚ)) ((th : ℚ) / (h : ℚ)) ≤ (th : ℚ) := by
    calc (h : ℚ) * min ((tw : ℚ) / (w : ℚ)) ((th : ℚ) / (h : ℚ))
        ≤ (h : ℚ) * ((th : ℚ) / (h : ℚ)) :=
          mul_le_mul_of_nonneg_left (min_le_right _ _) (le_of_lt hh0)
      _ = (th : ℚ) := by field_simp
  have hnw : (VideoProc.resize_and_crop_layout w h tw th).newWidth
      = ⌊(w : ℚ) * min ((tw : ℚ) / (w : ℚ)) ((th : ℚ) / (h : ℚ))⌋ := pyInt_eq_floor _ hwq
  have hnh : (VideoProc.resize_and_crop_layout w h tw th).newHeight
      = ⌊(h : ℚ) * min ((tw : ℚ) / (w : ℚ)) ((th : ℚ) / (h : ℚ))⌋ := pyInt_eq_floor _ hhq
  have hnw0 : 0 ≤ (VideoProc.resize_and_crop_layout w h tw th).newWidth := by
    rw [hnw]; exact Int.floor_nonneg.mpr hwq
  have hnh0 : 0 ≤ (VideoProc.resize_and_crop_layout w h tw th).newHeight := by
    rw [hnh]; exact Int.floor_nonneg.mpr hhq
  have hnwle : (VideoProc.resize_and_crop_layout w h tw th).newWidth ≤ (tw : Int) := by
    rw [hnw]
    have hfl := Int.floor_le_floor hwle
    rwa [Int.floor_natCast] at hfl
  have hnhle : (VideoProc.resize_and_crop_layout w h tw th).newHeight ≤ (th : Int) := by
    rw [hnh]
    have hfl := Int.floor_le_floor hhle
    rwa [Int.floor_natCast] at hfl
  have hfd : ∀ x : Int, 0 ≤ x → 0 ≤ Int.fdiv x 2 ∧ Int.fdiv x 2 ≤ x := by
    intro x hx
    refine ⟨Int.fdiv_nonneg hx (by omega), ?_⟩
    rw [Int.fdiv_eq_ediv _ (by omega)]
    exact Int.ediv_le_self 2 hx
  have hxd := hfd ((tw : Int) - (VideoProc.resize_and_crop_layout w h tw th).newWidth) (by omega)
  have hyd := hfd ((th : Int) - (VideoProc.resize_and_crop_layout w h tw th).newHeight) (by omega)
  have hxo : (VideoProc.resize_and_crop_layout w h tw th).xOffset
      = Int.fdiv ((tw : Int) - (VideoProc.resize_and_crop_layout w h tw th).newWidth) 2 := rfl
  have hyo : (VideoProc.resize_and_crop_layout w h tw th).yOffset
      = Int.fdiv ((th : Int) - (VideoProc.resize_and_crop_layout w h tw th).newHeight) 2 := rfl
  refine ⟨⟨hnw0, hnwle⟩, ⟨hnh0, hnhle⟩, hxo, hyo, ⟨?_, ?_⟩, ⟨?_, ?_⟩, rfl, rfl,
    pngOutputName_png⟩
  · rw [hxo]; exact hxd.1
  · rw [hxo]; have := hxd.2; omega
  · rw [hyo]; exact hyd.1
  · rw [hyo]; have := hyd.2; omega

/-- Witness for C7 at a concrete input: a 400x300 source fitted into
1920x1080 — the theorem applies with positive dimensions and yields the
bounds and exact canvas size. -/
theorem c7_resize_fit_layout_witness :
    0 < 400 ∧ 0 < 300 ∧
    (VideoProc.resize_and_crop_layout 400 300 1920 1080).canvasWidth = (1920 : Int) ∧
    (VideoProc.resize_and_crop_layout 400 300 1920 1080).newWidth ≤ (1920 : Int) ∧
    0 ≤ (VideoProc.resize_and_crop_layout 400 300 1920 1080).xOffset :=
  ⟨by decide, by decide,
   (c7_resize_fit_layout 400 300 1920 1080 (by decide) (by decide)).2.2.2.2.2.2.1,
   (c7_resize_fit_layout 400 300 1920 1080 (by decide) (by decide)).1.2,
   (c7_resize_fit_layout 400 300 1920 1080 (by decide) (by decide)).2.2.2.2.1.1⟩
